import Mathlib

/-!
Package `web` of web-router-go.

A shallow embedding of `src/web/errors.go`, `src/web/response.go`,
`src/web/request.go` and `src/web/web.go`, followed by the theorems that
settle the specification's claims about them.

Conventions of the embedding.

* A Go `error` interface value is an `Option GoError`; `none` is `nil`.
* Pointers that the code mutates in place (`*Values` reached through the
  context, the `http.ResponseWriter`, the decode target) are passed in and
  returned explicitly.
* `http.ResponseWriter` is an interface: the model records the calls the code
  makes on it, in order.
* Go `int` is `Int`; no arithmetic is performed on it in this package.
-/

namespace Web

/-! ## errors.go -/

/-- FieldError is used to indicate an error with a specific request field. -/
structure FieldError where
  Field : String
  Error : String
  deriving DecidableEq

/-- ErrorResponse is how the package responds to clients when something goes
wrong. The JSON tags of the source (`error`, `fields,omitempty`) are used by
`marshalErrorResponse`. -/
structure ErrorResponse where
  Error : String
  Fields : List FieldError
  deriving DecidableEq

/-- The dynamic kinds of non-nil `error` values this package creates or
inspects.

* `plain`: an error without a `Cause()` method (`errors.New`, a decoder or
  validator error, any foreign error).
* `shutdown`: the package's `*shutdown`.
* `webError`: the package's `*Error` with its `Err`, `Status` and `Fields`
  (`Err` is taken non-nil: `(*Error).Error` dereferences it).
* `withMessage`, `withStack`: the two cause-wrappers of `github.com/pkg/errors`;
  both implement `Cause()`. Recorded stack traces are not modelled. -/
inductive GoError where
  | plain (msg : String)
  | shutdown (Message : String)
  | webError (Err : GoError) (Status : Int) (Fields : List FieldError)
  | withMessage (cause : GoError) (msg : String)
  | withStack (cause : GoError)
  deriving DecidableEq

/-- The `Error() string` method of each kind: `(*Error).Error` returns
`e.Err.Error()`, `(*shutdown).Error` returns `s.Message`, `withMessage` prints
`msg: cause` and `withStack` prints its cause. -/
def GoError.Error : GoError → String
  | .plain msg => msg
  | .shutdown Message => Message
  | .webError Err _ _ => Err.Error
  | .withMessage cause msg => msg ++ ": " ++ cause.Error
  | .withStack cause => cause.Error

/-- Model of `errors.New` (both the standard one and the one of pkg/errors
return a value without a `Cause()` method). -/
def errorsNew (message : String) : GoError := .plain message

/-- Model of pkg/errors `WithStack`: nil stays nil. -/
def errorsWithStack : Option GoError → Option GoError
  | none => none
  | some err => some (.withStack err)

/-- Model of pkg/errors `WithMessage`: nil stays nil. -/
def errorsWithMessage : Option GoError → String → Option GoError
  | none, _ => none
  | some err, message => some (.withMessage err message)

/-- Model of pkg/errors `Wrap`: nil stays nil, otherwise a `withStack` around a
`withMessage`. -/
def errorsWrap : Option GoError → String → Option GoError
  | none, _ => none
  | some err, message => some (.withStack (.withMessage err message))

/-- The loop of pkg/errors `Cause` on a non-nil error: follow `Cause()` while
the value implements it. -/
def GoError.rootCause : GoError → GoError
  | .withMessage cause _ => cause.rootCause
  | .withStack cause => cause.rootCause
  | e => e

/-- Model of pkg/errors `Cause`. -/
def errorsCause : Option GoError → Option GoError
  | none => none
  | some err => some err.rootCause

/-- NewRequestError is used when a known error condition is encountered. -/
def NewRequestError (err : GoError) (status : Int) : Option GoError :=
  some (.webError err status [])

/-- NewShutdownError returns an error that causes the framework to signal a
graceful shutdown. -/
def NewShutdownError (message : String) : Option GoError :=
  some (.shutdown message)

/-- IsShutdown checks to see if the shutdown error is contained in the
specified error value. -/
def IsShutdown (err : Option GoError) : Bool :=
  match errorsCause err with
  | some (.shutdown _) => true
  | _ => false

/-- One application of a pkg/errors cause-chain wrapper. -/
inductive Wrapper where
  | wrap (message : String)
  | withMessage (message : String)
  | withStack
  deriving DecidableEq

/-- Apply one wrapper to an error value. -/
def Wrapper.apply : Wrapper → Option GoError → Option GoError
  | .wrap message, err => errorsWrap err message
  | .withMessage message, err => errorsWithMessage err message
  | .withStack, err => errorsWithStack err

/-- Apply a finite sequence of wrappers, the head of the list first. -/
def wrapAll : List Wrapper → Option GoError → Option GoError
  | [], err => err
  | w :: ws, err => wrapAll ws (w.apply err)

/-! ## response.go -/

/-- Values carries information about each request (`web.go`). `Start` is a
timestamp; its representation plays no role. -/
structure Values where
  StatusCode : Int
  Start : Nat
  TraceID : String
  deriving DecidableEq

/-- A `context.Context` as far as this package looks into it:
`ctx.Value(KeyValues).(*Values)` yields the `Values` the context points to, or
fails. The pointed-to value is threaded with the context. -/
structure Context where
  values : Option Values
  deriving DecidableEq

/-- One call made on an `http.ResponseWriter`. -/
inductive WriterCall where
  | headerSet (key value : String)
  | writeHeader (statusCode : Int)
  | write (data : String)
  deriving DecidableEq

/-- An `http.ResponseWriter`: the calls made on it so far, oldest first, and
the error its `Write` reports (`none` when the write succeeds). -/
structure ResponseWriter where
  calls : List WriterCall
  writeErr : Option GoError
  deriving DecidableEq

/-- Call `writer.Header().Set(key, value)`. -/
def ResponseWriter.HeaderSet (writer : ResponseWriter) (key value : String) : ResponseWriter :=
  { writer with calls := writer.calls ++ [.headerSet key value] }

/-- Call `writer.WriteHeader(statusCode)`. -/
def ResponseWriter.WriteHeader (writer : ResponseWriter) (statusCode : Int) : ResponseWriter :=
  { writer with calls := writer.calls ++ [.writeHeader statusCode] }

/-- Call `writer.Write(data)`: the call is recorded and the transport's error is
returned. -/
def ResponseWriter.Write (writer : ResponseWriter) (data : String) :
    ResponseWriter × Option GoError :=
  ({ writer with calls := writer.calls ++ [.write data] }, writer.writeErr)

/-- The status codes passed to `WriteHeader`, in order. -/
def ResponseWriter.statuses (writer : ResponseWriter) : List Int :=
  writer.calls.filterMap fun c =>
    match c with
    | .writeHeader s => some s
    | _ => none

/-- The data passed to `Write`, in order. -/
def ResponseWriter.bodies (writer : ResponseWriter) : List String :=
  writer.calls.filterMap fun c =>
    match c with
    | .write d => some d
    | _ => none

/-- The headers set, in order. -/
def ResponseWriter.headers (writer : ResponseWriter) : List (String × String) :=
  writer.calls.filterMap fun c =>
    match c with
    | .headerSet k v => some (k, v)
    | _ => none

/-- Constant `http.StatusNoContent`. -/
def StatusNoContent : Int := 204

/-- Constant `http.StatusBadRequest`. -/
def StatusBadRequest : Int := 400

/-- Constant `http.StatusInternalServerError`. -/
def StatusInternalServerError : Int := 500

/-- An excerpt of the table behind `http.StatusText`: the entries of the three
codes this package names. The package calls it on 500 only; codes outside the
excerpt are not modelled. -/
def StatusText (code : Int) : String :=
  if code = 204 then "No Content"
  else if code = 400 then "Bad Request"
  else if code = 500 then "Internal Server Error"
  else ""

/-- State after a call of `Respond` or `RespondError`, and the returned error. -/
structure Outcome where
  ctx : Context
  writer : ResponseWriter
  err : Option GoError
  deriving DecidableEq

/-- Respond marshals a value to JSON and sends it to the client. The first
argument stands for `json.Marshal` at the type of `val`. -/
def Respond {α : Type} (marshal : α → Except GoError String) (ctx : Context)
    (writer : ResponseWriter) (val : α) (statusCode : Int) : Outcome :=
  match ctx.values with
  | none => { ctx := ctx, writer := writer, err := some (errorsNew "web values missing from context") }
  | some v =>
    let ctx : Context := { values := some { v with StatusCode := statusCode } }
    if statusCode = StatusNoContent then
      { ctx := ctx, writer := writer.WriteHeader StatusNoContent, err := none }
    else
      match marshal val with
      | .error err =>
        { ctx := ctx, writer := writer, err := errorsWrap (some err) "marshalling value to json" }
      | .ok data =>
        let writer := writer.HeaderSet "content-type" "application/json; charset=utf-8"
        let writer := writer.WriteHeader statusCode
        match writer.Write data with
        | (writer, some err) =>
          { ctx := ctx, writer := writer, err := errorsWrap (some err) "writing to client" }
        | (writer, none) => { ctx := ctx, writer := writer, err := none }

/-- Hexadecimal digit used by the JSON encoder (`"0123456789abcdef"[n]`). -/
def hexChar (n : Nat) : Char := Nat.digitChar n

/-- How `encoding/json` (HTML escaping on, the default of `json.Marshal`)
writes one character of a string: quote and backslash are backslash-escaped,
newline, carriage return and tab get their short escapes, the other control
characters and `<`, `>`, `&` are written `\u00XX`, U+2028 and U+2029 are
written `\u202X`, everything else is copied. Backspace and form feed are
written `\u0008` and `\u000c`, as the encoder did before Go 1.22. A Lean string
is valid Unicode, so the replacement of invalid UTF-8 does not arise. -/
def jsonEscape (c : Char) : List Char :=
  if c = '"' ∨ c = '\\' then ['\\', c]
  else if c = '\n' then ['\\', 'n']
  else if c = '\r' then ['\\', 'r']
  else if c = '\t' then ['\\', 't']
  else if c.toNat < 32 ∨ c = '<' ∨ c = '>' ∨ c = '&' then
    ['\\', 'u', '0', '0', hexChar (c.toNat / 16), hexChar (c.toNat % 16)]
  else if c.toNat = 8232 ∨ c.toNat = 8233 then
    ['\\', 'u', '2', '0', '2', hexChar (c.toNat % 16)]
  else [c]

/-- The JSON text of a Go string. -/
def jsonString (s : String) : String :=
  String.mk ('"' :: (s.data.flatMap jsonEscape ++ ['"']))

/-- The JSON text of a `FieldError`, by its tags `field` and `error`. -/
def marshalFieldError (f : FieldError) : String :=
  "\x7b\"field\":" ++ jsonString f.Field ++ ",\"error\":" ++ jsonString f.Error ++ "\x7d"

/-- The JSON text `json.Marshal` produces for an `ErrorResponse`, by its tags
`error` and `fields,omitempty`: the second member is left out when the slice
has length zero. -/
def marshalErrorResponse (er : ErrorResponse) : String :=
  "\x7b\"error\":" ++ jsonString er.Error ++
    (if er.Fields.isEmpty then ""
     else ",\"fields\":[" ++ ",".intercalate (er.Fields.map marshalFieldError) ++ "]") ++ "\x7d"

/-- Function `json.Marshal` at type `ErrorResponse`; it cannot fail on a struct of
strings. -/
def jsonMarshalErrorResponse (er : ErrorResponse) : Except GoError String :=
  .ok (marshalErrorResponse er)

/-- RespondError knows how to handle errors going out to the client. -/
def RespondError (ctx : Context) (writer : ResponseWriter) (err : Option GoError) : Outcome :=
  match errorsCause err with
  | some (.webError webErrErr webErrStatus webErrFields) =>
    let er : ErrorResponse := { Error := webErrErr.Error, Fields := webErrFields }
    let out := Respond jsonMarshalErrorResponse ctx writer er webErrStatus
    match out.err with
    | some err => { out with err := some err }
    | none => { out with err := none }
  | _ =>
    let er : ErrorResponse := { Error := StatusText StatusInternalServerError, Fields := [] }
    let out := Respond jsonMarshalErrorResponse ctx writer er StatusInternalServerError
    match out.err with
    | some err => { out with err := some err }
    | none => { out with err := none }

/-! ## request.go -/

/-- An `http.Request` as far as `Decode` reads it: its body. -/
structure Request (β : Type) where
  Body : β

/-- A `json.Decoder`: the body it reads from and its strictness switch. -/
structure Decoder (β : Type) where
  body : β
  disallowUnknownFields : Bool

/-- Function `json.NewDecoder`: a decoder that tolerates unknown fields. -/
def NewDecoder {β : Type} (body : β) : Decoder β :=
  { body := body, disallowUnknownFields := false }

/-- Method `(*json.Decoder).DisallowUnknownFields`. -/
def Decoder.DisallowUnknownFields {β : Type} (decoder : Decoder β) : Decoder β :=
  { decoder with disallowUnknownFields := true }

/-- The parts of a `reflect.StructField` the package reads: the Go name of the
field and the value of its `json` tag (`fld.Tag.Get("json")`). -/
structure StructField where
  Name : String
  jsonTag : String
  deriving DecidableEq

/-- The first element of `strings.SplitN(s, ",", 2)`: the text before the first
comma, all of `s` when it has none. -/
def splitNFirst (s : String) : String :=
  String.mk (s.data.takeWhile fun c => c != ',')

/-- The function `init` registers with `validate.RegisterTagNameFunc`: use JSON
tag names for errors instead of Go struct names. -/
def tagNameFunc (fld : StructField) : String :=
  let name := splitNFirst fld.jsonTag
  if name = "-" then "" else name

/-- One `validator.FieldError`: the struct field that failed and the tag of the
constraint it violated. -/
structure Violation where
  fld : StructField
  tag : String
  deriving DecidableEq

/-- Method `Field()` of a `validator.FieldError` under the configuration of `init`:
the validator uses the result of the registered tag-name function when it is
not empty and the Go field name otherwise. -/
def Violation.Field (verror : Violation) : String :=
  let name := tagNameFunc verror.fld
  if name.length > 0 then name else verror.fld.Name

/-- What `validate.Struct` returns: nil, an error that is a
`validator.ValidationErrors`, or any other error. -/
inductive ValidateResult where
  | ok
  | validationErrors (verrors : List Violation)
  | other (err : GoError)
  deriving DecidableEq

/-- The collaborators of `Decode` that live outside the package:
`(*json.Decoder).Decode`, which fills the target and may fail,
`validate.Struct`, and `verror.Translate(lang)` for the English translator. -/
structure Deps (β τ : Type) where
  decode : Decoder β → τ → τ × Option GoError
  validateStruct : τ → ValidateResult
  translate : Violation → String

/-- Decode reads the body of a HTTP request looking for a JSON document. The
body is decoded into the provided value. The result is the target after the
call and the returned error. -/
def Decode {β τ : Type} (deps : Deps β τ) (request : Request β) (val : τ) : τ × Option GoError :=
  let decoder := NewDecoder request.Body
  let decoder := decoder.DisallowUnknownFields
  match deps.decode decoder val with
  | (val, some err) => (val, NewRequestError err StatusBadRequest)
  | (val, none) =>
    match deps.validateStruct val with
    | .ok => (val, none)
    | .other err => (val, some err)
    | .validationErrors verrors =>
      let fields := verrors.foldl
        (fun fields verror =>
          fields ++ [({ Field := verror.Field, Error := deps.translate verror } : FieldError)]) []
      (val, some (.webError (errorsNew "field validation error") StatusBadRequest fields))

/-- The entry check of validator.v9 `Validate.Struct`: a value that is not a
struct (after one pointer dereference) is answered with an
`*InvalidValidationError`; a struct is answered with nil when no constraint is
violated and with the violations otherwise. `isStruct` is the kind test,
`typeName` the printed type and `violated` the constraint evaluation. -/
def validatorStruct {τ : Type} (isStruct : τ → Bool) (typeName : τ → String)
    (violated : τ → List Violation) (val : τ) : ValidateResult :=
  if isStruct val then
    match violated val with
    | [] => .ok
    | verrors => .validationErrors verrors
  else .other (.plain ("validator: (nil " ++ typeName val ++ ")"))

/-! ## web.go -/

/-- What a `Handler` leaves behind: the context's `Values`, the response
writer, the application state it acts on, and the returned error. -/
structure HandlerResult (σ : Type) where
  ctx : Context
  w : ResponseWriter
  app : σ
  err : Option GoError

/-- Handler is the signature that all application handlers implement; `σ` is the
application state a handler may read and change. -/
def Handler (σ β : Type) : Type :=
  Context → ResponseWriter → Request β → σ → HandlerResult σ

/-- Middleware is a function from a handler to a handler. -/
def Middleware (σ β : Type) : Type := Handler σ β → Handler σ β

/-- Modelled from the spec: `wrapMiddleware`, whose source file is not part of
the sources at hand. The spec's testable property is that
`wrapMiddleware([A, B], handler)` runs A-before, B-before, handler, B-after,
A-after, so the first middleware listed is the outermost wrapper. The theorems
below either treat the result as an arbitrary handler or apply it to lists of
one element, where the order of composition plays no role. -/
def wrapMiddleware {σ β : Type} (mw : List (Middleware σ β)) (handler : Handler σ β) :
    Handler σ β :=
  mw.foldr (fun m h => m h) handler

/-- A line written through `router.Log`: the `Printf` of the bridge function
with its two arguments, or the `Println` of `SignalShutdown`. -/
inductive LogLine where
  | unhandled (traceID : String) (err : GoError)
  | shuttingDown
  deriving DecidableEq

/-- A value sent on the shutdown channel. -/
inductive Signal where
  | SIGSTOP
  deriving DecidableEq

/-- The state outside a request that the bridge function reaches: the output
of `router.Log`, the values sent on `router.shutdown`, and the application
state. -/
structure Proc (σ : Type) where
  log : List LogLine
  shutdown : List Signal
  app : σ

/-- What the collaborators give the bridge function for one request: the trace
ID of the span `trace.StartSpan` opens and the reading of `time.Now`. -/
structure Ambient where
  traceID : String
  now : Nat

/-- The function type registered with the URL router. -/
def HandlerFunc (σ β : Type) : Type :=
  ResponseWriter → Request β → Ambient → Proc σ → Proc σ × ResponseWriter

/-- One registration in the URL router. -/
structure Route (σ β : Type) where
  method : String
  pattern : String
  fn : HandlerFunc σ β

/-- Router is the entry point for all web applications: the registrations of
the URL router and the chain-wide middleware. The logger's output and the
shutdown channel's content live in `Proc`. -/
structure Router (σ β : Type) where
  mux : List (Route σ β)
  mw : List (Middleware σ β)

/-- NewRouter knows how to construct internal state for a Router. -/
def NewRouter {σ β : Type} (mw : List (Middleware σ β)) : Router σ β :=
  { mux := [], mw := mw }

/-- SignalShutdown is used to gracefully shutdown the app when an integrity
issue is identified. -/
def SignalShutdown {σ : Type} (p : Proc σ) : Proc σ :=
  { p with log := p.log ++ [.shuttingDown], shutdown := p.shutdown ++ [.SIGSTOP] }

/-- The `Values` the bridge function builds for a request. -/
def freshValues (amb : Ambient) : Values :=
  { StatusCode := 0, Start := amb.now, TraceID := amb.traceID }

/-- The closure `fn` of `Router.Handler` for the composed handler `h`. After the
handler returns, `v` is read back through the pointer the context carried. -/
def bridge {σ β : Type} (h : Handler σ β) : HandlerFunc σ β :=
  fun w r amb p =>
    let v := freshValues amb
    let ctx : Context := { values := some v }
    let res := h ctx w r p.app
    let v := res.ctx.values.getD v
    let p := { p with app := res.app }
    match res.err with
    | some err =>
      let p := { p with log := p.log ++ [.unhandled v.TraceID err] }
      if IsShutdown (some err) then (SignalShutdown p, res.w) else (p, res.w)
    | none => (p, res.w)

/-- Handler connects a method and URL pattern to a particular application
handler. -/
def Router.Handler {σ β : Type} (router : Router σ β) (method pattern : String)
    (h : Handler σ β) (mw : List (Middleware σ β)) : Router σ β :=
  let h := wrapMiddleware mw h
  let h := wrapMiddleware router.mw h
  let fn := bridge h
  { router with mux := router.mux ++ [{ method := method, pattern := pattern, fn := fn }] }

/-! ## Concrete collaborators and handlers used to instantiate the theorems -/

/-- A struct target with two string fields, tagged `json:"name"` and
`json:"email" validate:"required"`. -/
structure Account where
  name : String
  email : String
  deriving DecidableEq

/-- The struct field `Email` of `Account`. -/
def Account.emailField : StructField := { Name := "Email", jsonTag := "email" }

/-- Decoding a JSON object, given as its members in order, into an `Account`: a
known member is stored; an unknown member is skipped by a tolerant decoder and
makes a strict decoder report `json: unknown field` (the first such error is
kept and decoding goes on). -/
def accountDecode (decoder : Decoder (List (String × String))) (val : Account) :
    Account × Option GoError :=
  decoder.body.foldl
    (fun acc member =>
      if member.1 = "name" then ({ acc.1 with name := member.2 }, acc.2)
      else if member.1 = "email" then ({ acc.1 with email := member.2 }, acc.2)
      else if decoder.disallowUnknownFields then
        (acc.1, acc.2.orElse fun _ => some (.plain ("json: unknown field \"" ++ member.1 ++ "\"")))
      else acc)
    (val, none)

/-- The violations the validator reports for an `Account`: `required` on
`Email` when it is empty. -/
def accountViolated (val : Account) : List Violation :=
  if val.email = "" then [{ fld := Account.emailField, tag := "required" }] else []

/-- The English translation of a violation of `required`. -/
def translateEn (verror : Violation) : String :=
  verror.Field ++ " is a required field"

/-- The collaborators at target type `Account`. -/
def accountDeps : Deps (List (String × String)) Account where
  decode := accountDecode
  validateStruct := validatorStruct (fun _ => true) (fun _ => "*Account") accountViolated
  translate := translateEn

/-- The collaborators at target type `*[]string`: the body is a JSON array of
strings, the decoder stores it, and the target is not a struct and declares no
constraint. -/
def sliceDeps : Deps (List String) (List String) where
  decode := fun decoder _ => (decoder.body, none)
  validateStruct := validatorStruct (fun _ => false) (fun _ => "*[]string") (fun _ => [])
  translate := translateEn

/-- A struct target with two string fields, tagged
`json:"email,omitempty" validate:"required"` and
`json:"-" validate:"required"`. -/
structure Login where
  email : String
  password : String
  deriving DecidableEq

/-- The struct field `Email` of `Login`. -/
def Login.emailField : StructField := { Name := "Email", jsonTag := "email,omitempty" }

/-- The struct field `Password` of `Login`, which JSON never reads or writes. -/
def Login.passwordField : StructField := { Name := "Password", jsonTag := "-" }

/-- Decoding a JSON object, given as its members in order, into a `Login`: only
`email` is a known member; any other member is skipped by a tolerant decoder
and makes a strict decoder report `json: unknown field`. -/
def loginDecode (decoder : Decoder (List (String × String))) (val : Login) :
    Login × Option GoError :=
  decoder.body.foldl
    (fun acc member =>
      if member.1 = "email" then ({ acc.1 with email := member.2 }, acc.2)
      else if decoder.disallowUnknownFields then
        (acc.1, acc.2.orElse fun _ => some (.plain ("json: unknown field \"" ++ member.1 ++ "\"")))
      else acc)
    (val, none)

/-- The violations the validator reports for a `Login`, in the order of the
struct's fields: `required` on `Email` and on `Password` when empty. -/
def loginViolated (val : Login) : List Violation :=
  (if val.email = "" then [{ fld := Login.emailField, tag := "required" }] else []) ++
    (if val.password = "" then [{ fld := Login.passwordField, tag := "required" }] else [])

/-- The collaborators at target type `Login`. -/
def loginDeps : Deps (List (String × String)) Login where
  decode := loginDecode
  validateStruct := validatorStruct (fun _ => true) (fun _ => "*Login") loginViolated
  translate := translateEn

/-- A middleware that records its entry and its exit in the application
state. -/
def recorder {β : Type} (name : String) : Middleware (List String) β :=
  fun next ctx w r app =>
    let res := next ctx w r (app ++ [name ++ "-before"])
    { res with app := res.app ++ [name ++ "-after"] }

/-- A handler that records its run in the application state and succeeds. -/
def recordingHandler {β : Type} : Handler (List String) β :=
  fun ctx w _ app => { ctx := ctx, w := w, app := app ++ ["handler"], err := none }

/-- Whether a log line is the bridge function's report of a handler error. -/
def LogLine.isUnhandled : LogLine → Bool
  | .unhandled _ _ => true
  | .shuttingDown => false

/-! ## Theorems -/

/-! ## Lemmas on the error model -/

theorem errorsCause_apply (w : Wrapper) (err : Option GoError) :
    errorsCause (w.apply err) = errorsCause err := by
  cases w <;> cases err <;> rfl

theorem errorsCause_wrapAll (ws : List Wrapper) (err : Option GoError) :
    errorsCause (wrapAll ws err) = errorsCause err := by
  induction ws generalizing err with
  | nil => rfl
  | cons w ws ih => rw [wrapAll, ih, errorsCause_apply]

theorem IsShutdown_wrapAll (ws : List Wrapper) (err : Option GoError) :
    IsShutdown (wrapAll ws err) = IsShutdown err := by
  unfold IsShutdown
  rw [errorsCause_wrapAll]

theorem wrapAll_append (ws vs : List Wrapper) (err : Option GoError) :
    wrapAll (ws ++ vs) err = wrapAll vs (wrapAll ws err) := by
  induction ws generalizing err with
  | nil => rfl
  | cons w ws ih => simp [wrapAll, ih]

theorem exists_wrapAll_of_rootCause (e : GoError) :
    ∃ ws, some e = wrapAll ws (some e.rootCause) := by
  induction e with
  | plain msg => exact ⟨[], rfl⟩
  | shutdown msg => exact ⟨[], rfl⟩
  | webError err s fs _ => exact ⟨[], rfl⟩
  | withMessage cause msg ih =>
    obtain ⟨ws, h⟩ := ih
    refine ⟨ws ++ [.withMessage msg], ?_⟩
    rw [wrapAll_append, GoError.rootCause, ← h]
    rfl
  | withStack cause ih =>
    obtain ⟨ws, h⟩ := ih
    refine ⟨ws ++ [.withStack], ?_⟩
    rw [wrapAll_append, GoError.rootCause, ← h]
    rfl

/-- C5: `IsShutdown` is true for `NewShutdownError m` under any finite sequence
of `errors.Wrap` / `errors.WithMessage` / `errors.WithStack` wrappers, false for
nil, for a plain error and for an error from `NewRequestError` under any such
wrapping, and in general true exactly for the wrappings of a shutdown error. -/
theorem IsShutdown_spec :
    (∀ (m : String) (ws : List Wrapper), IsShutdown (wrapAll ws (NewShutdownError m)) = true) ∧
    (∀ ws : List Wrapper, IsShutdown (wrapAll ws none) = false) ∧
    (∀ (m : String) (ws : List Wrapper), IsShutdown (wrapAll ws (some (errorsNew m))) = false) ∧
    (∀ (e : GoError) (s : Int) (ws : List Wrapper),
      IsShutdown (wrapAll ws (NewRequestError e s)) = false) ∧
    (∀ (e : GoError) (s : Int) (fs : List FieldError) (ws : List Wrapper),
      IsShutdown (wrapAll ws (some (.webError e s fs))) = false) ∧
    (∀ err : Option GoError,
      IsShutdown err = true ↔ ∃ m ws, err = wrapAll ws (NewShutdownError m)) := by
  refine ⟨?_, ?_, ?_, ?_, ?_, ?_⟩
  · intro m ws
    rw [IsShutdown_wrapAll]; rfl
  · intro ws
    rw [IsShutdown_wrapAll]; rfl
  · intro m ws
    rw [IsShutdown_wrapAll]; rfl
  · intro e s ws
    rw [IsShutdown_wrapAll]; rfl
  · intro e s fs ws
    rw [IsShutdown_wrapAll]; rfl
  · intro err
    constructor
    · intro h
      cases err with
      | none => simp [IsShutdown, errorsCause] at h
      | some e =>
        obtain ⟨ws, hws⟩ := exists_wrapAll_of_rootCause e
        cases hrc : e.rootCause with
        | shutdown m => exact ⟨m, ws, by rw [hws, hrc]; rfl⟩
        | plain m => simp [IsShutdown, errorsCause, hrc] at h
        | webError a b c => simp [IsShutdown, errorsCause, hrc] at h
        | withMessage a b => simp [IsShutdown, errorsCause, hrc] at h
        | withStack a => simp [IsShutdown, errorsCause, hrc] at h
    · rintro ⟨m, ws, rfl⟩
      rw [IsShutdown_wrapAll]; rfl

/-! ## Respond and RespondError -/

theorem Respond_json {α : Type} (marshal : α → Except GoError String) (v : Values)
    (writer : ResponseWriter) (val : α) (s : Int) (data : String)
    (hs : s ≠ 204) (hm : marshal val = .ok data) :
    Respond marshal { values := some v } writer val s =
      { ctx := { values := some { v with StatusCode := s } }
        writer := { writer with calls := writer.calls ++
          [.headerSet "content-type" "application/json; charset=utf-8", .writeHeader s,
            .write data] }
        err := errorsWrap writer.writeErr "writing to client" } := by
  have hs' : ¬ s = StatusNoContent := hs
  cases hw : writer.writeErr <;>
    simp [Respond, hs', hm, ResponseWriter.Write, ResponseWriter.WriteHeader,
      ResponseWriter.HeaderSet, hw, errorsWrap]

theorem Outcome.rematch (out : Outcome) :
    (match out.err with
      | some err => { out with err := some err }
      | none => { out with err := none }) = out := by
  cases out with
  | mk c w e => cases e <;> rfl

theorem RespondError_eq_Respond_web (ctx : Context) (writer : ResponseWriter)
    (err : Option GoError) (e : GoError) (s : Int) (fs : List FieldError)
    (h : errorsCause err = some (.webError e s fs)) :
    RespondError ctx writer err =
      Respond jsonMarshalErrorResponse ctx writer { Error := e.Error, Fields := fs } s := by
  unfold RespondError
  rw [h]
  exact Outcome.rematch _

theorem RespondError_eq_Respond_other (ctx : Context) (writer : ResponseWriter)
    (err : Option GoError) (h : ∀ e s fs, errorsCause err ≠ some (.webError e s fs)) :
    RespondError ctx writer err =
      Respond jsonMarshalErrorResponse ctx writer
        { Error := "Internal Server Error", Fields := [] } 500 := by
  unfold RespondError
  split
  · rename_i e s fs hc
    exact absurd hc (h e s fs)
  · exact Outcome.rematch _

/-- C3: for every context carrying Values, every payload and every behaviour of
the serialiser on it (failure included), `Respond` with status 204 records 204
in the Values, calls `WriteHeader(204)` and nothing else on the writer (no
header is set, no body is written), and returns no error; the outcome does not
depend on the payload or on the serialiser. -/
theorem Respond_no_content {α : Type} (marshal : α → Except GoError String) (v : Values)
    (writer : ResponseWriter) (val : α) :
    Respond marshal { values := some v } writer val StatusNoContent =
        { ctx := { values := some { v with StatusCode := 204 } }
          writer := { writer with calls := writer.calls ++ [.writeHeader 204] }
          err := none } ∧
    (Respond marshal { values := some v } writer val 204).writer.statuses =
        writer.statuses ++ [204] ∧
    (Respond marshal { values := some v } writer val 204).writer.bodies = writer.bodies ∧
    (Respond marshal { values := some v } writer val 204).writer.headers = writer.headers ∧
    (Respond marshal { values := some v } writer val 204).err = none ∧
    (∀ (β : Type) (marshal' : β → Except GoError String) (val' : β),
      Respond marshal' { values := some v } writer val' 204 =
        Respond marshal { values := some v } writer val 204) := by
  have h : ∀ (β : Type) (m : β → Except GoError String) (x : β),
      Respond m { values := some v } writer x 204 =
        { ctx := { values := some { v with StatusCode := 204 } }
          writer := { writer with calls := writer.calls ++ [.writeHeader 204] }
          err := none } := by
    intro β m x
    simp [Respond, StatusNoContent, ResponseWriter.WriteHeader]
  refine ⟨h α marshal val, ?_, ?_, ?_, ?_, ?_⟩
  · rw [h]; simp [ResponseWriter.statuses, List.filterMap_append]
  · rw [h]; simp [ResponseWriter.bodies, List.filterMap_append]
  · rw [h]; simp [ResponseWriter.headers, List.filterMap_append]
  · rw [h]
  · intro β m x; rw [h, h]

/-- C4: for every context carrying Values, every status `s` other than 204 and
every value whose serialisation succeeds with `data`, `Respond` sets
`StatusCode` to `s` and leaves `Start` and `TraceID` as they were, sets the
content-type header to `application/json; charset=utf-8`, then calls
`WriteHeader(s)` once, then writes `data`, and returns no error when the write
succeeds. -/
theorem Respond_success {α : Type} (marshal : α → Except GoError String) (v : Values)
    (writer : ResponseWriter) (val : α) (s : Int) (data : String)
    (hs : s ≠ 204) (hm : marshal val = .ok data) :
    (Respond marshal { values := some v } writer val s).ctx.values =
        some { StatusCode := s, Start := v.Start, TraceID := v.TraceID } ∧
    (Respond marshal { values := some v } writer val s).writer.calls =
        writer.calls ++ [.headerSet "content-type" "application/json; charset=utf-8",
          .writeHeader s, .write data] ∧
    (Respond marshal { values := some v } writer val s).writer.statuses =
        writer.statuses ++ [s] ∧
    (Respond marshal { values := some v } writer val s).writer.bodies =
        writer.bodies ++ [data] ∧
    (writer.writeErr = none → (Respond marshal { values := some v } writer val s).err = none) := by
  rw [Respond_json marshal v writer val s data hs hm]
  refine ⟨rfl, rfl, ?_, ?_, ?_⟩
  · simp [ResponseWriter.statuses, List.filterMap_append]
  · simp [ResponseWriter.bodies, List.filterMap_append]
  · intro hw; simp [hw, errorsWrap]

/-- Witness for C4: a 201 response carrying the text `[1,2]`. -/
theorem Respond_success_witness :
    (Respond (fun _ : Unit => Except.ok "[1,2]") { values := some ⟨0, 7, "t"⟩ } ⟨[], none⟩ () 201).ctx.values =
        some { StatusCode := 201, Start := 7, TraceID := "t" } ∧
    (Respond (fun _ : Unit => Except.ok "[1,2]") { values := some ⟨0, 7, "t"⟩ } ⟨[], none⟩ () 201).writer.calls =
        [] ++ [.headerSet "content-type" "application/json; charset=utf-8",
          .writeHeader 201, .write "[1,2]"] ∧
    (Respond (fun _ : Unit => Except.ok "[1,2]") { values := some ⟨0, 7, "t"⟩ } ⟨[], none⟩ () 201).writer.statuses =
        ResponseWriter.statuses ⟨[], none⟩ ++ [201] ∧
    (Respond (fun _ : Unit => Except.ok "[1,2]") { values := some ⟨0, 7, "t"⟩ } ⟨[], none⟩ () 201).writer.bodies =
        ResponseWriter.bodies ⟨[], none⟩ ++ ["[1,2]"] ∧
    ((none : Option GoError) = none →
      (Respond (fun _ : Unit => Except.ok "[1,2]") { values := some ⟨0, 7, "t"⟩ } ⟨[], none⟩ () 201).err = none) :=
  Respond_success (fun _ : Unit => Except.ok "[1,2]") ⟨0, 7, "t"⟩ ⟨[], none⟩ () 201 "[1,2]"
    (by decide) rfl

theorem RespondError_web_outcome (v : Values) (writer : ResponseWriter) (err : Option GoError)
    (e : GoError) (s : Int) (fs : List FieldError)
    (hc : errorsCause err = some (.webError e s fs)) (hs : s ≠ 204) :
    RespondError { values := some v } writer err =
      { ctx := { values := some { v with StatusCode := s } }
        writer := { writer with calls := writer.calls ++
          [.headerSet "content-type" "application/json; charset=utf-8", .writeHeader s,
            .write (marshalErrorResponse { Error := e.Error, Fields := fs })] }
        err := errorsWrap writer.writeErr "writing to client" } := by
  rw [RespondError_eq_Respond_web { values := some v } writer err e s fs hc]
  exact Respond_json jsonMarshalErrorResponse v writer { Error := e.Error, Fields := fs } s _ hs rfl

theorem statuses_append (writer : ResponseWriter) (cs : List WriterCall) :
    ResponseWriter.statuses { writer with calls := writer.calls ++ cs } =
      writer.statuses ++ ResponseWriter.statuses { writer with calls := cs } := by
  simp [ResponseWriter.statuses, List.filterMap_append]

theorem bodies_append (writer : ResponseWriter) (cs : List WriterCall) :
    ResponseWriter.bodies { writer with calls := writer.calls ++ cs } =
      writer.bodies ++ ResponseWriter.bodies { writer with calls := cs } := by
  simp [ResponseWriter.bodies, List.filterMap_append]

theorem headers_append (writer : ResponseWriter) (cs : List WriterCall) :
    ResponseWriter.headers { writer with calls := writer.calls ++ cs } =
      writer.headers ++ ResponseWriter.headers { writer with calls := cs } := by
  simp [ResponseWriter.headers, List.filterMap_append]

theorem marshalErrorResponse_nil (m : String) :
    marshalErrorResponse { Error := m, Fields := [] } =
      "\x7b\"error\":" ++ jsonString m ++ "\x7d" := by
  simp [marshalErrorResponse]


/-- C1: when the root cause of `err` is a `*Error` with cause `e`, status `s`
other than 204 and fields `fs`, and the context carries Values, `RespondError`
sets the JSON content type, calls `WriteHeader(s)` and writes the JSON text of
`ErrorResponse{Error: e.Error(), Fields: fs}`: member `error` with the message,
then member `fields` with the field errors in the order of `fs`, which is left
out when `fs` is empty. For `NewRequestError(errors.New("not found"), 404)` the
status is 404 and the body is `{"error":"not found"}`. -/
theorem RespondError_web (v : Values) (writer : ResponseWriter) (err : Option GoError)
    (e : GoError) (s : Int) (fs : List FieldError)
    (hc : errorsCause err = some (.webError e s fs)) (hs : s ≠ 204) :
    (RespondError { values := some v } writer err).writer.calls =
        writer.calls ++ [.headerSet "content-type" "application/json; charset=utf-8",
          .writeHeader s, .write (marshalErrorResponse { Error := e.Error, Fields := fs })] ∧
    (RespondError { values := some v } writer err).writer.statuses = writer.statuses ++ [s] ∧
    (RespondError { values := some v } writer err).writer.bodies =
        writer.bodies ++ [marshalErrorResponse { Error := e.Error, Fields := fs }] ∧
    (RespondError { values := some v } writer err).ctx.values =
        some { v with StatusCode := s } ∧
    (fs = [] → marshalErrorResponse { Error := e.Error, Fields := fs } =
        "\x7b\"error\":" ++ jsonString e.Error ++ "\x7d") ∧
    (fs ≠ [] → marshalErrorResponse { Error := e.Error, Fields := fs } =
        "\x7b\"error\":" ++ jsonString e.Error ++ ",\"fields\":[" ++
          ",".intercalate (fs.map fun f =>
            "\x7b\"field\":" ++ jsonString f.Field ++ ",\"error\":" ++ jsonString f.Error ++ "\x7d")
          ++ "]\x7d") ∧
    (RespondError { values := some v } writer
        (NewRequestError (errorsNew "not found") 404)).writer.calls =
      writer.calls ++ [.headerSet "content-type" "application/json; charset=utf-8",
        .writeHeader 404, .write "\x7b\"error\":\"not found\"\x7d"] := by
  have hr := RespondError_eq_Respond_web { values := some v } writer err e s fs hc
  have hj := Respond_json jsonMarshalErrorResponse v writer
    { Error := e.Error, Fields := fs } s _ hs rfl
  rw [hr, hj]
  refine ⟨rfl, ?_, ?_, rfl, ?_, ?_, ?_⟩
  · simp [ResponseWriter.statuses, List.filterMap_append]
  · simp [ResponseWriter.bodies, List.filterMap_append]
  · rintro rfl
    simp [marshalErrorResponse]
  · intro hne
    have : fs.isEmpty = false := by cases fs <;> simp_all
    have hf : marshalFieldError = fun f =>
        "\x7b\"field\":" ++ jsonString f.Field ++ ",\"error\":" ++ jsonString f.Error ++ "\x7d" :=
      rfl
    rw [← hf]
    simp [marshalErrorResponse, this, String.append_assoc]
  · rw [RespondError_eq_Respond_web { values := some v } writer
        (NewRequestError (errorsNew "not found") 404) (errorsNew "not found") 404 [] rfl,
      Respond_json jsonMarshalErrorResponse v writer _ 404 _ (by decide) rfl]
    simp only [List.append_cancel_left_eq, List.cons.injEq, true_and, and_true,
      WriterCall.write.injEq]
    decide

/-- Witness for C1: a 422 error with two field errors, wrapped once. -/
theorem RespondError_web_witness :
    (RespondError { values := some ⟨0, 7, "t"⟩ } ⟨[], none⟩
        (errorsWrap (some (.webError (errorsNew "bad") 422 [⟨"a", "x"⟩, ⟨"b", "y"⟩])) "ctx")).writer.bodies =
      ResponseWriter.bodies ⟨[], none⟩ ++
        [marshalErrorResponse { Error := "bad", Fields := [⟨"a", "x"⟩, ⟨"b", "y"⟩] }] :=
  (RespondError_web ⟨0, 7, "t"⟩ ⟨[], none⟩
    (errorsWrap (some (.webError (errorsNew "bad") 422 [⟨"a", "x"⟩, ⟨"b", "y"⟩])) "ctx")
    (errorsNew "bad") 422 [⟨"a", "x"⟩, ⟨"b", "y"⟩] rfl (by decide)).2.2.1

/-- C2: when the error is not nil and its root cause is not a `*Error`, and the
context carries Values, `RespondError` sets the JSON content type, calls
`WriteHeader(500)` and writes exactly `{"error":"Internal Server Error"}`; two
such errors give the same outcome (context, writer calls, returned error), so
nothing of the error reaches the client. -/
theorem RespondError_internal (v : Values) (writer : ResponseWriter) (e₁ e₂ : GoError)
    (h₁ : ∀ e s fs, errorsCause (some e₁) ≠ some (.webError e s fs))
    (h₂ : ∀ e s fs, errorsCause (some e₂) ≠ some (.webError e s fs)) :
    (RespondError { values := some v } writer (some e₁)).writer.calls =
        writer.calls ++ [.headerSet "content-type" "application/json; charset=utf-8",
          .writeHeader 500, .write "\x7b\"error\":\"Internal Server Error\"\x7d"] ∧
    (RespondError { values := some v } writer (some e₁)).writer.statuses =
        writer.statuses ++ [500] ∧
    (RespondError { values := some v } writer (some e₁)).writer.bodies =
        writer.bodies ++ ["\x7b\"error\":\"Internal Server Error\"\x7d"] ∧
    (RespondError { values := some v } writer (some e₁)).writer.headers =
        writer.headers ++ [("content-type", "application/json; charset=utf-8")] ∧
    RespondError { values := some v } writer (some e₁) =
      RespondError { values := some v } writer (some e₂) := by
  have hb : marshalErrorResponse { Error := "Internal Server Error", Fields := [] } =
      "\x7b\"error\":\"Internal Server Error\"\x7d" := by decide
  have hj := Respond_json jsonMarshalErrorResponse v writer
    { Error := "Internal Server Error", Fields := [] } 500 _ (by decide) rfl
  rw [RespondError_eq_Respond_other _ _ _ h₁, RespondError_eq_Respond_other _ _ _ h₂, hj, hb]
  refine ⟨rfl, ?_, ?_, ?_, rfl⟩
  · simp [ResponseWriter.statuses, List.filterMap_append]
  · simp [ResponseWriter.bodies, List.filterMap_append]
  · simp [ResponseWriter.headers, List.filterMap_append]

/-- Witness for C2: a wrapped plain error with a secret in its text and a
shutdown error. -/
theorem RespondError_internal_witness :
    RespondError { values := some ⟨0, 7, "t"⟩ } ⟨[], none⟩
        (some (.withStack (.withMessage (.plain "dial db: password=hunter2") "query"))) =
      RespondError { values := some ⟨0, 7, "t"⟩ } ⟨[], none⟩ (some (.shutdown "stop")) :=
  (RespondError_internal ⟨0, 7, "t"⟩ ⟨[], none⟩
    (.withStack (.withMessage (.plain "dial db: password=hunter2") "query")) (.shutdown "stop")
    (by intro e s fs h; cases h) (by intro e s fs h; cases h)).2.2.2.2

/-! ## Decode -/

theorem foldl_fields_eq_map (translate : Violation → String) (verrors : List Violation)
    (acc : List FieldError) :
    verrors.foldl
        (fun fields verror =>
          fields ++ [({ Field := verror.Field, Error := translate verror } : FieldError)]) acc =
      acc ++ verrors.map fun verror => { Field := verror.Field, Error := translate verror } := by
  induction verrors generalizing acc with
  | nil => simp
  | cons x xs ih => simp [List.foldl_cons, ih]

theorem Decode_of_decode_error {β τ : Type} (deps : Deps β τ) (request : Request β)
    (val val' : τ) (perr : GoError)
    (hd : deps.decode { body := request.Body, disallowUnknownFields := true } val =
      (val', some perr)) :
    Decode deps request val = (val', some (.webError perr 400 [])) := by
  simp [Decode, NewDecoder, Decoder.DisallowUnknownFields, hd, NewRequestError,
    StatusBadRequest]

theorem Decode_of_violations {β τ : Type} (deps : Deps β τ) (request : Request β)
    (val val' : τ) (verrors : List Violation)
    (hd : deps.decode { body := request.Body, disallowUnknownFields := true } val = (val', none))
    (hv : deps.validateStruct val' = .validationErrors verrors) :
    Decode deps request val =
      (val', some (.webError (.plain "field validation error") 400
        (verrors.map fun verror =>
          { Field := verror.Field, Error := deps.translate verror }))) := by
  simp [Decode, NewDecoder, Decoder.DisallowUnknownFields, hd, hv, StatusBadRequest,
    foldl_fields_eq_map, errorsNew]

/-- C6: when strict decoding of the body into the target fails with `perr`,
`Decode` returns a `*Error` with `Err = perr`, `Status = 400` and no `Fields`,
whatever the validator and translator would do (they are not consulted), and
`RespondError` answers it with status 400. The decoder `Decode` runs is the
strict one: for a JSON library whose strict decoder rejects every body with a
field unknown to the target, every such body gets this answer. -/
theorem Decode_bad_request {β τ : Type} (deps : Deps β τ) (request : Request β)
    (val val' : τ) (perr : GoError) (unknown : β → τ → Prop)
    (hd : deps.decode { body := request.Body, disallowUnknownFields := true } val =
      (val', some perr))
    (hlib : ∀ (d : Decoder β) (t : τ), d.disallowUnknownFields = true → unknown d.body t →
      ∃ t' e, deps.decode d t = (t', some e)) :
    Decode deps request val = (val', some (.webError perr 400 [])) ∧
    (∀ (validate : τ → ValidateResult) (translate : Violation → String),
      Decode { deps with validateStruct := validate, translate := translate } request val =
        (val', some (.webError perr 400 []))) ∧
    (∀ (v : Values) (writer : ResponseWriter),
      (RespondError { values := some v } writer (Decode deps request val).2).writer.statuses =
          writer.statuses ++ [400] ∧
      (RespondError { values := some v } writer (Decode deps request val).2).writer.bodies =
          writer.bodies ++ ["\x7b\"error\":" ++ jsonString perr.Error ++ "\x7d"]) ∧
    (∀ (request' : Request β) (val₀ : τ), unknown request'.Body val₀ →
      ∃ t' e, Decode deps request' val₀ = (t', some (.webError e 400 []))) := by
  have h1 := Decode_of_decode_error deps request val val' perr hd
  refine ⟨h1, ?_, ?_, ?_⟩
  · intro validate translate
    exact Decode_of_decode_error _ request val val' perr hd
  · intro v writer
    rw [h1, RespondError_web_outcome v writer (some (.webError perr 400 [])) perr 400 [] rfl
      (by decide), marshalErrorResponse_nil]
    constructor
    · rw [statuses_append]; rfl
    · rw [bodies_append]; rfl
  · intro request' val₀ hu
    obtain ⟨t', e, he⟩ := hlib { body := request'.Body, disallowUnknownFields := true } val₀
      rfl hu
    exact ⟨t', e, Decode_of_decode_error deps request' val₀ t' e he⟩

theorem accountDecode_error_kept (strict : Bool) (body : List (String × String))
    (acc : Account × Option GoError) (h : acc.2.isSome = true) :
    ((body.foldl
      (fun acc member =>
        if member.1 = "name" then ({ acc.1 with name := member.2 }, acc.2)
        else if member.1 = "email" then ({ acc.1 with email := member.2 }, acc.2)
        else if strict then
          (acc.1, acc.2.orElse fun _ => some (.plain ("json: unknown field \"" ++ member.1 ++ "\"")))
        else acc) acc).2).isSome = true := by
  induction body generalizing acc with
  | nil => simpa using h
  | cons m ms ih =>
    rw [List.foldl_cons]
    apply ih
    obtain ⟨a, e⟩ := acc
    cases e with
    | none => simp at h
    | some e0 => split_ifs <;> simp [Option.orElse]

theorem accountDecode_strict_unknown (body : List (String × String))
    (acc : Account × Option GoError)
    (h : ∃ member ∈ body, member.1 ≠ "name" ∧ member.1 ≠ "email") :
    ((body.foldl
      (fun acc member =>
        if member.1 = "name" then ({ acc.1 with name := member.2 }, acc.2)
        else if member.1 = "email" then ({ acc.1 with email := member.2 }, acc.2)
        else if true then
          (acc.1, acc.2.orElse fun _ => some (.plain ("json: unknown field \"" ++ member.1 ++ "\"")))
        else acc) acc).2).isSome = true := by
  induction body generalizing acc with
  | nil => simp at h
  | cons m ms ih =>
    rw [List.foldl_cons]
    obtain ⟨x, hx, hn, he⟩ := h
    rcases List.mem_cons.mp hx with rfl | hx'
    · apply accountDecode_error_kept true
      obtain ⟨a, e⟩ := acc
      cases e <;> simp [hn, he, Option.orElse]
    · exact ih _ ⟨x, hx', hn, he⟩

theorem accountDeps_strict (d : Decoder (List (String × String))) (t : Account)
    (hs : d.disallowUnknownFields = true)
    (hu : ∃ member ∈ d.body, member.1 ≠ "name" ∧ member.1 ≠ "email") :
    ∃ t' e, accountDeps.decode d t = (t', some e) := by
  have h := accountDecode_strict_unknown d.body (t, none) hu
  have heq : accountDeps.decode d t = accountDecode d t := rfl
  rw [heq]
  unfold accountDecode
  rw [hs]
  generalize List.foldl _ (t, none) d.body = res at h ⊢
  obtain ⟨a, e⟩ := res
  cases e with
  | none => simp at h
  | some e0 => exact ⟨a, e0, rfl⟩

/-- Witness for C6: a body whose known members are valid and which has one
unknown member `x`. -/
theorem Decode_bad_request_witness :
    Decode accountDeps ⟨[("name", "n"), ("email", "e"), ("x", "y")]⟩ ⟨"", ""⟩ =
      (⟨"n", "e"⟩, some (.webError (.plain "json: unknown field \"x\"") 400 [])) :=
  (Decode_bad_request accountDeps ⟨[("name", "n"), ("email", "e"), ("x", "y")]⟩ ⟨"", ""⟩
    ⟨"n", "e"⟩ (.plain "json: unknown field \"x\"")
    (fun body _ => ∃ member ∈ body, member.1 ≠ "name" ∧ member.1 ≠ "email")
    (by decide) accountDeps_strict).1

theorem string_length_pos (s : String) (h : s ≠ "") : 0 < s.length := by
  cases s with
  | mk d =>
    cases d with
    | nil => exact absurd rfl h
    | cons c cs => simp [String.length]

/-- When decoding succeeds and the validator reports the violations `verrors`,
`Decode` returns one `*Error` with status 400, cause message
`field validation error` and one field error per violation, in the validator's
order; the i-th carries `Field()` and the translation of the i-th violation.
`Field()` is the text before the first comma of the field's JSON tag, except
that an empty text and the text `-` give the Go field name. -/
theorem Decode_field_errors {β τ : Type} (deps : Deps β τ) (request : Request β)
    (val val' : τ) (verrors : List Violation)
    (hd : deps.decode { body := request.Body, disallowUnknownFields := true } val = (val', none))
    (hv : deps.validateStruct val' = .validationErrors verrors) :
    ∃ fields : List FieldError,
      Decode deps request val =
        (val', some (.webError (errorsNew "field validation error") 400 fields)) ∧
      (GoError.webError (errorsNew "field validation error") 400 fields).Error =
        "field validation error" ∧
      fields.length = verrors.length ∧
      (∀ (i : Nat) (h : i < verrors.length),
        fields[i]? = some { Field := (verrors.get ⟨i, h⟩).Field,
                            Error := deps.translate (verrors.get ⟨i, h⟩) }) ∧
      (∀ verror ∈ verrors,
        verror.Field =
          if splitNFirst verror.fld.jsonTag = "" ∨ splitNFirst verror.fld.jsonTag = "-" then
            verror.fld.Name
          else splitNFirst verror.fld.jsonTag) := by
  refine ⟨_, Decode_of_violations deps request val val' verrors hd hv, rfl, by simp, ?_, ?_⟩
  · intro i h
    simp [List.getElem?_map, List.getElem?_eq_getElem h]
  · intro verror _
    by_cases hdash : splitNFirst verror.fld.jsonTag = "-"
    · simp [Violation.Field, tagNameFunc, hdash]
    · by_cases hne : splitNFirst verror.fld.jsonTag = ""
      · simp [Violation.Field, tagNameFunc, hne]
      · have hlen : 0 < (splitNFirst verror.fld.jsonTag).length := string_length_pos _ hne
        simp [Violation.Field, tagNameFunc, hdash, hne, hlen]

/-- C7, the failing input: a `Login` target whose `Password` field is tagged
`json:"-" validate:"required"` and whose `Email` field is tagged
`json:"email,omitempty" validate:"required"`, with the body `{}`. Decoding
succeeds, both constraints fail, and `Decode` returns one `*Error` with status
400, cause `field validation error` and two field errors in the validator's
order. The first is named `email`, the name part of its JSON tag; the second is
named `Password`, the Go identifier, because the registered tag-name function
returns the empty string for the tag `-`. -/
theorem Decode_suppressed_field :
    loginDeps.decode { body := [], disallowUnknownFields := true } ⟨"", ""⟩ = (⟨"", ""⟩, none) ∧
    loginDeps.validateStruct ⟨"", ""⟩ =
      .validationErrors [{ fld := Login.emailField, tag := "required" },
        { fld := Login.passwordField, tag := "required" }] ∧
    Decode loginDeps ⟨[]⟩ ⟨"", ""⟩ =
      (⟨"", ""⟩, some (.webError (.plain "field validation error") 400
        [{ Field := "email", Error := "email is a required field" },
         { Field := "Password", Error := "Password is a required field" }])) ∧
    tagNameFunc Login.emailField = "email" ∧
    tagNameFunc Login.passwordField = "" ∧
    Violation.Field { fld := Login.passwordField, tag := "required" } = Login.passwordField.Name ∧
    Violation.Field { fld := Login.passwordField, tag := "required" } ≠ "-" := by
  decide

theorem validatorStruct_ok {τ : Type} (isStruct : τ → Bool) (typeName : τ → String)
    (violated : τ → List Violation) (val : τ) (hs : isStruct val = true)
    (hv : violated val = []) :
    validatorStruct isStruct typeName violated val = .ok := by
  simp [validatorStruct, hs, hv]

theorem Decode_of_valid {β τ : Type} (deps : Deps β τ) (request : Request β) (val val' : τ)
    (hd : deps.decode { body := request.Body, disallowUnknownFields := true } val = (val', none))
    (hv : deps.validateStruct val' = .ok) :
    Decode deps request val = (val', none) := by
  simp [Decode, NewDecoder, Decoder.DisallowUnknownFields, hd, hv]

/-- C8, the failing input: the body `["a","b"]` is a well-formed JSON document of
the shape of a `*[]string` target, which declares no constraint; decoding
succeeds and stores the document, yet `Decode` returns the validator's
`InvalidValidationError` instead of nil. -/
theorem Decode_non_struct_target :
    sliceDeps.decode { body := ["a", "b"], disallowUnknownFields := true } [] =
        (["a", "b"], none) ∧
    Decode sliceDeps ⟨["a", "b"]⟩ [] =
        (["a", "b"], some (.plain "validator: (nil *[]string)")) ∧
    (Decode sliceDeps ⟨["a", "b"]⟩ []).2 ≠ none := by
  decide

/-! ## Router -/

theorem bridge_eq {σ β : Type} (h : Handler σ β) (w : ResponseWriter) (r : Request β)
    (amb : Ambient) (p : Proc σ) (res : HandlerResult σ)
    (hres : h { values := some { StatusCode := 0, Start := amb.now, TraceID := amb.traceID } }
      w r p.app = res) :
    bridge h w r amb p =
      match res.err with
      | none => ({ p with app := res.app }, res.w)
      | some err =>
        ({ log := p.log ++
              .unhandled (res.ctx.values.getD
                { StatusCode := 0, Start := amb.now, TraceID := amb.traceID }).TraceID err ::
                (if IsShutdown (some err) then [.shuttingDown] else [])
           shutdown := p.shutdown ++ (if IsShutdown (some err) then [.SIGSTOP] else [])
           app := res.app },
          res.w) := by
  subst hres
  unfold bridge freshValues
  simp only
  cases (h { values := some { StatusCode := 0, Start := amb.now, TraceID := amb.traceID } }
    w r p.app).err with
  | none => rfl
  | some err =>
    simp only
    cases IsShutdown (some err) <;> simp [SignalShutdown]

/-- C9: the function `Router.Handler` registers calls the composed handler once,
on a context carrying fresh Values (status 0, the span's trace ID): the
application state and the writer afterwards are those one call leaves, so the
bridge adds no writer call. When the handler returns nil the log and the
shutdown channel are untouched. When it returns `err`, one line with the
Values' trace ID and `err` is logged; if `IsShutdown(err)` this is followed by
the notice of `SignalShutdown` and one `SIGSTOP` is sent on the shutdown
channel, otherwise nothing more is logged and nothing is sent. -/
theorem Router_Handler_bridge {σ β : Type} (router : Router σ β) (method pattern : String)
    (h₀ : Handler σ β) (mw : List (Middleware σ β)) :
    ∃ fn : HandlerFunc σ β,
      (router.Handler method pattern h₀ mw).mux =
        router.mux ++ [{ method := method, pattern := pattern, fn := fn }] ∧
      ∀ (w : ResponseWriter) (r : Request β) (amb : Ambient) (p : Proc σ),
        let res := wrapMiddleware router.mw (wrapMiddleware mw h₀)
          { values := some { StatusCode := 0, Start := amb.now, TraceID := amb.traceID } }
          w r p.app
        (fn w r amb p).2 = res.w ∧
        (fn w r amb p).1.app = res.app ∧
        match res.err with
        | none => (fn w r amb p).1.log = p.log ∧ (fn w r amb p).1.shutdown = p.shutdown
        | some err =>
          (fn w r amb p).1.log =
            p.log ++ .unhandled (res.ctx.values.getD
                { StatusCode := 0, Start := amb.now, TraceID := amb.traceID }).TraceID err ::
              (if IsShutdown (some err) then [.shuttingDown] else []) ∧
          ((fn w r amb p).1.log.drop p.log.length).countP LogLine.isUnhandled = 1 ∧
          (fn w r amb p).1.shutdown =
            p.shutdown ++ (if IsShutdown (some err) then [.SIGSTOP] else []) := by
  refine ⟨bridge (wrapMiddleware router.mw (wrapMiddleware mw h₀)), rfl, ?_⟩
  intro w r amb p
  simp only
  rw [bridge_eq _ w r amb p _ rfl]
  generalize wrapMiddleware router.mw (wrapMiddleware mw h₀)
    { values := some { StatusCode := 0, Start := amb.now, TraceID := amb.traceID } }
    w r p.app = res
  obtain ⟨rc, rw', ra, re⟩ := res
  cases re with
  | none => simp
  | some err =>
    simp only [true_and]
    cases IsShutdown (some err) <;> simp [LogLine.isUnhandled]

/-- C10: for every handler, per-route middleware list and chain-wide middleware
list given to `NewRouter`, the function `Router.Handler` registers runs
`wrapMiddleware(chainWide, wrapMiddleware(mw, h))`: the per-route middleware is
applied first and the chain-wide middleware around the result. With chain-wide
`[A]` and per-route `[B]` the composed handler is `A(B(h))`, and for recording
middleware a request runs A-before, B-before, handler, B-after, A-after. -/
theorem Router_Handler_composition {σ β : Type} (chainWide mw : List (Middleware σ β))
    (h : Handler σ β) (method pattern : String) :
    (∃ fn : HandlerFunc σ β,
      ((NewRouter chainWide).Handler method pattern h mw).mux =
        [{ method := method, pattern := pattern, fn := fn }] ∧
      ∀ (w : ResponseWriter) (r : Request β) (amb : Ambient) (p : Proc σ),
        fn w r amb p = bridge (wrapMiddleware chainWide (wrapMiddleware mw h)) w r amb p ∧
        (fn w r amb p).1.app =
          (wrapMiddleware chainWide (wrapMiddleware mw h)
            { values := some { StatusCode := 0, Start := amb.now, TraceID := amb.traceID } }
            w r p.app).app ∧
        (fn w r amb p).2 =
          (wrapMiddleware chainWide (wrapMiddleware mw h)
            { values := some { StatusCode := 0, Start := amb.now, TraceID := amb.traceID } }
            w r p.app).w) ∧
    (∀ A B : Middleware σ β, wrapMiddleware [A] (wrapMiddleware [B] h) = A (B h)) ∧
    (∃ fn : HandlerFunc (List String) β,
      ((NewRouter [recorder "A"]).Handler method pattern recordingHandler [recorder "B"]).mux =
        [{ method := method, pattern := pattern, fn := fn }] ∧
      ∀ (w : ResponseWriter) (r : Request β) (amb : Ambient) (p : Proc (List String)),
        (fn w r amb p).1.app =
          p.app ++ ["A-before", "B-before", "handler", "B-after", "A-after"] ∧
        (fn w r amb p).2 = w) := by
  refine ⟨⟨bridge (wrapMiddleware chainWide (wrapMiddleware mw h)), rfl, ?_⟩, ?_, ?_⟩
  · intro w r amb p
    refine ⟨rfl, ?_, ?_⟩
    · rw [bridge_eq _ w r amb p _ rfl]
      split <;> rfl
    · rw [bridge_eq _ w r amb p _ rfl]
      split <;> rfl
  · intro A B
    rfl
  · refine ⟨bridge (wrapMiddleware [recorder "A"] (wrapMiddleware [recorder "B"]
      recordingHandler)), rfl, ?_⟩
    intro w r amb p
    simp [bridge, wrapMiddleware, recorder, recordingHandler]

end Web
